import Mathlib

/-!
Verification of the ZeroStomp firmware control layer
(src/circuitpython/zero_stomp.py and src/circuitpython/apps/tuner.py).

Numeric values are embedded as exact rationals; the two logarithmic
formulas of the tuner output stage are embedded over the reals.
-/

/-- constrain from zero_stomp.py: min(max(value, min_value), max_value).
The Python defaults are min_value = 0, max_value = 1; call sites here pass
the bounds explicitly. -/
def constrain (value minValue maxValue : ℚ) : ℚ :=
  min (max value minValue) maxValue

/-- map_value from zero_stomp.py: constrain(value) * (max - min) + min. -/
def map_value (value minValue maxValue : ℚ) : ℚ :=
  constrain value 0 1 * (maxValue - minValue) + minValue

/-- unmap_value from zero_stomp.py: constrain((value - min) / (max - min)). -/
def unmap_value (value minValue maxValue : ℚ) : ℚ :=
  constrain ((value - minValue) / (maxValue - minValue)) 0 1

/-- State of one Knob (class Knob in zero_stomp.py).  value is the committed
value self._value, previous is self._previous (None encoded as Option.none),
hidden is the displayio hidden flag, and commits logs every invocation of
self._set_value (which fires the callback), in order, with its argument. -/
structure KnobState where
  value : ℚ
  previous : Option ℚ
  hidden : Bool
  commits : List ℚ
deriving DecidableEq

/-- The Knob.value property setter of zero_stomp.py, with threshold ε
(self._threshold, default 0.01).  Faithful translation: when previous is
None the reading is only recorded; when previous equals the committed value
the reading commits iff it differs from the committed value by at least ε;
otherwise the two crossing tests run in sequence, the second one reading
self._value as possibly updated by the first, and previous is updated. -/
def knobSetValue (ε : ℚ) (s : KnobState) (r : ℚ) : KnobState :=
  match s.previous with
  | none => { s with previous := some r }
  | some p =>
    if p = s.value then
      if ε ≤ |r - s.value| then
        { s with value := r, commits := s.commits ++ [r], previous := some r }
      else s
    else
      let s1 := if p < s.value ∧ s.value ≤ r then
          { s with value := r, commits := s.commits ++ [r] } else s
      let s2 := if s1.value < p ∧ r ≤ s1.value then
          { s1 with value := r, commits := s1.commits ++ [r] } else s1
      { s2 with previous := some r }

/-- Knob.reset() with no argument: clears the previous marker only. -/
def knobReset (s : KnobState) : KnobState :=
  { s with previous := none }

/-- Feeding a sequence of readings to the Knob.value setter, left to right,
as the per-tick knob loop of ZeroStomp.update does. -/
def feedReadings (ε : ℚ) (s : KnobState) (rs : List ℚ) : KnobState :=
  rs.foldl (knobSetValue ε) s

/-- A knob holding committed value 1/2 that has just been reset(), used for
the C3 counterexample. -/
def kc3 : KnobState :=
  knobReset { value := 1/2, previous := some (1/2), hidden := false, commits := [] }

/-- A knob holding committed value 1/2 whose last raw reading was 3/10
(not in seeking state), used for the C4 counterexample. -/
def kc4 : KnobState :=
  { value := 1/2, previous := some (3/10), hidden := false, commits := [] }

/-- The commit condition exactly as claim C4 words it: ((previous < reading)
AND (reading ≥ current)) OR ((previous > reading) AND (reading ≤ current)). -/
def claimC4Cond (p c r : ℚ) : Prop :=
  (p < r ∧ c ≤ r) ∨ (r < p ∧ r ≤ c)

instance (p c r : ℚ) : Decidable (claimC4Cond p c r) := by
  unfold claimC4Cond; infer_instance

/-- A knob state used to witness the amended C4 crossing rule. -/
def kw4 : KnobState :=
  { value := 1/2, previous := some (2/5), hidden := false, commits := [] }

/-- A knob state used to witness the amended C3 seeking rule: its previous
raw reading equals its committed value 1/2 (actively updating state). -/
def kw3 : KnobState :=
  { value := 1/2, previous := some (1/2), hidden := false, commits := [] }

/-- The codec registers written by ZeroStomp._update_mix.  dacMute is
self._codec.dac_mute, micOutputVolume the dry bleed gain
self._codec.mic_output_volume, dacVolume the wet gain self._codec.dac_volume,
micOutput the discrete dry path switch self._codec.mic_output. -/
structure MixOut where
  dacMute : Bool
  micOutputVolume : ℚ
  dacVolume : ℚ
  micOutput : Bool
deriving DecidableEq

/-- The constant the code assigns to mic_output_volume while bypassed
(the literal 0.0 in ZeroStomp._update_mix). -/
def BYPASS_DRY_GAIN : ℚ := 0

/-- ZeroStomp._update_mix as a pure function of the bypass switch state and
the stored mix value.  outMin and dacMin stand for the codec library
constants OUTPUT_VOLUME_MIN and DAC_VOLUME_MIN (the library is an external
collaborator, so they are kept abstract). -/
def updateMix (outMin dacMin : ℚ) (bypassed : Bool) (mix : ℚ) : MixOut :=
  { dacMute := bypassed,
    micOutputVolume :=
      if bypassed then BYPASS_DRY_GAIN else map_value (1 - mix) outMin 0,
    dacVolume := map_value mix dacMin 0,
    micOutput := if bypassed = false ∧ 1 ≤ mix then false else true }

/-- Effective wet gain of the codec state: the DAC volume, except that the
dac_mute register forces the wet path to the library minimum dacMin. -/
def effectiveWetGain (dacMin : ℚ) (o : MixOut) : ℚ :=
  match o.dacMute with
  | true => dacMin
  | false => o.dacVolume

/-- NUM_POTS from zero_stomp.py. -/
def NUM_POTS : ℕ := 3

/-- SWITCH_SHORT_DURATION from zero_stomp.py (0.4 seconds). -/
def SWITCH_SHORT_DURATION : ℚ := 2/5

/-- The mutable state of class ZeroStomp that the control-surface claims are
about: knob page, knob list, tap counter (self._stomp_count), the LED
control flag and PWM duty cycle, the stored mix and level, and a flag
recording that load_next_program (supervisor reload) fired.  Codec register
state is modeled separately by updateMix. -/
structure Device where
  page : ℕ
  knobs : List KnobState
  stompCount : ℕ
  ledControl : Bool
  ledDuty : ℕ
  mix : ℚ
  level : ℚ
  reloaded : Bool

/-- ZeroStomp.page_count: max(len(knobs) - 1, 0) // NUM_POTS + 1 (truncated
subtraction on ℕ realizes the max with 0). -/
def pageCount (d : Device) : ℕ :=
  (d.knobs.length - 1) / NUM_POTS + 1

/-- ZeroStomp.page_knob_count: min(max(len(knobs) - page * NUM_POTS, 0), NUM_POTS). -/
def pageKnobCount (d : Device) : ℕ :=
  min (d.knobs.length - d.page * NUM_POTS) NUM_POTS

/-- ZeroStomp.next_page: advance the page modulo page_count, then set every
knob hidden flag by page membership and reset() it. -/
def nextPage (d : Device) : Device :=
  let p := (d.page + 1) % pageCount d
  { d with
    page := p,
    knobs := d.knobs.mapIdx fun i k =>
      { knobReset k with hidden := decide (i / NUM_POTS ≠ p) } }

/-- Assign one reading to the knob at a list index through the Knob.value
setter.  The update loop only produces indices inside the list. -/
def setKnobAt (ε : ℚ) (ks : List KnobState) (idx : ℕ) (r : ℚ) : List KnobState :=
  match ks.get? idx with
  | some k => ks.set idx (knobSetValue ε k r)
  | none => ks

/-- The knob loop at the end of ZeroStomp.update: for i in
range(page_knob_count): knobs[i + page * NUM_POTS].value = knob_value(i). -/
def knobLoop (ε : ℚ) (d : Device) (reading : ℕ → ℚ) : Device :=
  let ks := (List.range (pageKnobCount d)).foldl
    (fun ks i => setKnobAt ε ks (i + d.page * NUM_POTS) (reading i)) d.knobs
  { d with knobs := ks }

/-- The ZeroStomp.led property setter: disables automatic LED control and
writes int(map_value(value, 0, 65535)) to the PWM duty cycle. -/
def setLed (d : Device) (v : ℚ) : Device :=
  { d with
    ledControl := false,
    ledDuty := (map_value v 0 65535).floor.toNat }

/-- The ZeroStomp.mix property setter: stores constrain(value) and
recomputes the codec mix registers (the register effect is updateMix). -/
def setMix (d : Device) (v : ℚ) : Device :=
  { d with mix := constrain v 0 1 }

/-- The ZeroStomp.level property setter: stores constrain(value); the
headphone volume register write is external codec state. -/
def setLevel (d : Device) (v : ℚ) : Device :=
  { d with level := constrain v 0 1 }

/-- ZeroStomp.add_knob: appends a knob whose constructor commits the initial
value and computes hidden = (page_count - 1 != page) over the new list. -/
def addKnob (d : Device) (v : ℚ) : Device :=
  { d with knobs := d.knobs ++
      [{ value := v, previous := none,
         hidden := decide (d.knobs.length / NUM_POTS ≠ d.page),
         commits := [v] }] }

/-- ZeroStomp.update for one tick.  Inputs: b is the debounced switch value
(self.bypassed), edge is rose-or-fell, dur is last_duration, progs the
number of installed programs, reading the normalized pot readings.  The
_update_mix call on an edge only touches codec registers (see updateMix) and
a load_next_program dispatch reloads the interpreter, which ends the tick. -/
def updateDevice (ε : ℚ) (d : Device) (b edge : Bool) (dur : ℚ) (progs : ℕ)
    (reading : ℕ → ℚ) : Device :=
  let d1 := if d.ledControl then
      { d with ledDuty := if b then 0 else 65535 } else d
  if edge then
    if dur < SWITCH_SHORT_DURATION then
      let d2 := { d1 with stompCount := d1.stompCount + 1 }
      if 1 < d2.stompCount ∧ 1 < progs then { d2 with reloaded := true }
      else knobLoop ε (nextPage d2) reading
    else knobLoop ε { d1 with stompCount := 0 } reading
  else knobLoop ε d1 reading

/-- The state-mutating operations of class ZeroStomp covered by this model. -/
inductive Op where
  | update (b edge : Bool) (dur : ℚ) (progs : ℕ) (reading : ℕ → ℚ)
  | setMix (v : ℚ)
  | setLevel (v : ℚ)
  | setLed (v : ℚ)
  | nextPage
  | addKnob (v : ℚ)

/-- Apply one ZeroStomp operation to the device state. -/
def applyOp (ε : ℚ) (d : Device) : Op → Device
  | .update b edge dur progs reading => updateDevice ε d b edge dur progs reading
  | .setMix v => setMix d v
  | .setLevel v => setLevel d v
  | .setLed v => setLed d v
  | .nextPage => nextPage d
  | .addKnob v => addKnob d v

/-- Apply a sequence of ZeroStomp operations, left to right. -/
def applyOps (ε : ℚ) (ops : List Op) (d : Device) : Device :=
  ops.foldl (applyOp ε) d

/-- A concrete freshly initialized device state (page 0, no knobs, counter 0,
automatic LED control on, mix 0, level 1), used by witnesses. -/
def d0 : Device :=
  { page := 0, knobs := [], stompCount := 0, ledControl := true,
    ledDuty := 0, mix := 0, level := 1, reloaded := false }

/-- A constant zero pot reading function, used by witnesses. -/
def zeroReading : ℕ → ℚ := fun _ => 0

/-- FREQ_CUTOFF from apps/tuner.py (0.25). -/
def FREQ_CUTOFF : ℚ := 1/4

/-- np.max over a magnitude list, as apps/tuner.py uses it (the tuner only
evaluates it on a nonempty spectrum; the empty case is given a junk value). -/
def npMax : List ℚ → ℚ
  | [] => 0
  | x :: xs => xs.foldl (fun a b => if a < b then b else a) x

/-- np.min over a magnitude list (same conventions as npMax). -/
def npMin : List ℚ → ℚ
  | [] => 0
  | x :: xs => xs.foldl (fun a b => if b < a then b else a) x

/-- np.sum over a magnitude list. -/
def npSum (l : List ℚ) : ℚ := l.sum

/-- np.sum(data * dist) where dist = np.arange(len(data)): the sum of each
bin value times its index. -/
def npWeightedSum (l : List ℚ) : ℚ :=
  (l.enum.map fun p => p.2 * (p.1 : ℚ)).sum

/-- The thresholding step of apps/tuner.py: threshold = (max - min) *
FREQ_CUTOFF + min over the half spectrum, then np.where(data > threshold,
data, 0.0). -/
def thresholdStep (data : List ℚ) : List ℚ :=
  let t := (npMax data - npMin data) * FREQ_CUTOFF + npMin data
  data.map fun x => if t < x then x else 0

/-- One maximal contiguous run of nonzero bins as the tuner scan records it:
area = [start, stop, total] with stop exclusive (the scan starts the run as
[i, i, 0] and adds 1 to the middle entry for every member bin). -/
structure Area where
  start : ℕ
  stop : ℕ
  total : ℚ
deriving DecidableEq

/-- The area scan loop of apps/tuner.py over the thresholded half spectrum:
walks the bins with index i, growing the open area on positive bins and
closing it on zero bins, appending the final open area after the loop. -/
def findAreasAux : List ℚ → ℕ → List Area → Option Area → List Area
  | [], _, areas, none => areas
  | [], _, areas, some a => areas ++ [a]
  | x :: xs, i, areas, acc =>
    if 0 < x then
      match acc with
      | none => findAreasAux xs (i + 1) areas (some { start := i, stop := i + 1, total := x })
      | some a => findAreasAux xs (i + 1) areas (some { a with stop := a.stop + 1, total := a.total + x })
    else
      match acc with
      | none => findAreasAux xs (i + 1) areas none
      | some a => findAreasAux xs (i + 1) (areas ++ [a]) none

/-- The list of areas of a thresholded spectrum, in scan order. -/
def findAreas (data : List ℚ) : List Area :=
  findAreasAux data 0 [] none

/-- sorted(areas, key=lambda x: x[1]) from apps/tuner.py: a stable ascending
sort on the middle entry of each area, which is the exclusive end index of
the run (not its length).  Stable insertion sort matches the Python sort. -/
def sortAreas (areas : List Area) : List Area :=
  List.insertionSort (fun a b => a.stop ≤ b.stop) areas

/-- Zero the bins of one area: data[j] = 0.0 for start <= j < stop. -/
def clearArea (data : List ℚ) (a : Area) : List ℚ :=
  data.mapIdx fun j x => if a.start ≤ j ∧ j < a.stop then 0 else x

/-- The clearing loop of apps/tuner.py: for i in range(1, len(areas)) zero
the bins of areas[i], keeping only areas[0] of the sorted list. -/
def clearAreas (data : List ℚ) (areas : List Area) : List ℚ :=
  (areas.drop 1).foldl clearArea data

/-- The complete region-isolation step of apps/tuner.py on a thresholded
half spectrum: scan the areas, sort them with sortAreas, and zero every
area except the first of the sorted list. -/
def isolate (data : List ℚ) : List ℚ :=
  clearAreas data (sortAreas (findAreas data))

/-- Length (bin count) of an area. -/
def regionLength (a : Area) : ℕ := a.stop - a.start

/-- The region the specification says to keep: the area of greatest length,
the one encountered last during the scan winning ties.  A left fold that
replaces the best candidate whenever the next area is at least as long. -/
def bestArea (areas : List Area) : Option Area :=
  areas.foldl
    (fun acc a =>
      match acc with
      | none => some a
      | some b => if regionLength b ≤ regionLength a then some a else some b)
    none

/-- Region isolation as the specification words it, for comparison with
isolate: zero the bins of every area except the one of greatest length,
breaking ties toward the area encountered last during the scan. -/
def isolateSpec (data : List ℚ) : List ℚ :=
  match bestArea (findAreas data) with
  | none => data
  | some best =>
    (findAreas data).foldl
      (fun d a => if a.start = best.start then d else clearArea d a) data

/-- The weighted-centroid index of apps/tuner.py: np.sum(data * dist) /
np.sum(data).  The code divides unconditionally; a zero magnitude sum makes
the float division produce nan (0.0/0.0), embedded here as none. -/
def centroid (data : List ℚ) : Option ℚ :=
  if npSum data = 0 then none else some (npWeightedSum data / npSum data)

/-- The spectral part of one open-gate tuner tick, from the retained half
spectrum through thresholding and region isolation to the centroid index.
The code runs these steps with no branch in between, so a spectrum whose
thresholded form has no nonzero bin reaches the centroid division with a
zero denominator. -/
def tunerTick (data : List ℚ) : Option ℚ :=
  centroid (isolate (thresholdStep data))

/-- The cents formula the code computes at the tuner output stage:
1200 * math.log(frequency / target_frequency), where the one-argument
math.log is the natural logarithm. -/
noncomputable def codeCents (f t : ℝ) : ℝ :=
  1200 * Real.log (f / t)

/-- The cents formula the specification states: 1200 * log2(detected /
target), written for comparison with codeCents. -/
noncomputable def specCents (f t : ℝ) : ℝ :=
  1200 * Real.logb 2 (f / t)

/-- The target frequency of apps/tuner.py: math.pow(2, (notenum - 69) / 12)
* 440. -/
noncomputable def targetFrequency (n : ℤ) : ℝ :=
  2 ^ (((n : ℝ) - 69) / 12) * 440

/-! ### Helper lemmas -/

theorem constrain01_mem (x : ℚ) : 0 ≤ constrain x 0 1 ∧ constrain x 0 1 ≤ 1 := by
  unfold constrain
  exact ⟨le_min (le_max_right x 0) zero_le_one, min_le_right _ _⟩

theorem constrain_of_mem (x lo hi : ℚ) (h0 : lo ≤ x) (h1 : x ≤ hi) :
    constrain x lo hi = x := by
  unfold constrain
  rw [max_eq_left h0, min_eq_left h1]

/-! ### Claim C7: round trip of map_value and unmap_value -/

/-- C7 (counterexample): the claim says the round trip equals clamp with the
default bounds 0 and 1; at v = 15, lo = 10, hi = 20 the round trip gives 15
while constrain 15 0 1 gives 1. -/
theorem c7_counterexample :
    map_value (unmap_value 15 10 20) 10 20 = 15 ∧
    constrain 15 0 1 = 1 ∧
    map_value (unmap_value 15 10 20) 10 20 ≠ constrain 15 0 1 := by
  refine ⟨?_, ?_, ?_⟩ <;> norm_num [map_value, unmap_value, constrain]

/-- C7 (amended): for lo < hi and every v, map(unmap(v, lo, hi), lo, hi)
equals v clamped to the bounds lo and hi (exact over the rationals). -/
theorem c7_roundtrip_amended (v lo hi : ℚ) (h : lo < hi) :
    map_value (unmap_value v lo hi) lo hi = constrain v lo hi := by
  have hpos : 0 < hi - lo := sub_pos.mpr h
  have hmem := constrain01_mem ((v - lo) / (hi - lo))
  show constrain (constrain ((v - lo) / (hi - lo)) 0 1) 0 1 * (hi - lo) + lo
      = constrain v lo hi
  rw [constrain_of_mem _ _ _ hmem.1 hmem.2]
  rcases le_or_lt v lo with hv | hv
  · have hx : (v - lo) / (hi - lo) ≤ 0 :=
      div_nonpos_iff.mpr (Or.inr ⟨by linarith, hpos.le⟩)
    unfold constrain
    rw [max_eq_right hx, min_eq_left zero_le_one, max_eq_right hv, min_eq_left h.le]
    ring
  · rcases le_or_lt hi v with hv2 | hv2
    · have hx : 1 ≤ (v - lo) / (hi - lo) := (one_le_div hpos).mpr (by linarith)
      unfold constrain
      rw [max_eq_left (le_trans zero_le_one hx), min_eq_right hx,
        max_eq_left (by linarith : lo ≤ v), min_eq_right hv2]
      ring
    · have hx0 : 0 ≤ (v - lo) / (hi - lo) := div_nonneg (by linarith) hpos.le
      have hx1 : (v - lo) / (hi - lo) ≤ 1 := (div_le_one hpos).mpr (by linarith)
      unfold constrain
      rw [max_eq_left hx0, min_eq_left hx1, max_eq_left hv.le, min_eq_left hv2.le,
        div_mul_cancel₀ _ (ne_of_gt hpos)]
      ring

/-- C7 (witness): the amended round trip at v = 7, lo = 10, hi = 20. -/
theorem c7_roundtrip_amended_witness :
    map_value (unmap_value 7 10 20) 10 20 = constrain 7 10 20 :=
  c7_roundtrip_amended 7 10 20 (by norm_num)

/-! ### Claim C1: region isolation keeps the wrong region -/

/-- C1 (code bug, evaluation at the failing input): on the thresholded half
spectrum [1, 0, 2, 2] the scan finds two runs, of lengths 1 and 2.  The code
sorts the runs by their end index (not their length) and zeroes every run
except the first of the sorted list, so it keeps the first-scanned run of
length 1 and returns [1, 0, 0, 0]; the claimed reduction keeps the run of
greatest length and returns [0, 0, 2, 2]. -/
theorem c1_region_isolation_eval :
    isolate [1, 0, 2, 2] = [1, 0, 0, 0] ∧
    isolateSpec [1, 0, 2, 2] = [0, 0, 2, 2] ∧
    isolate [1, 0, 2, 2] ≠ isolateSpec [1, 0, 2, 2] := by
  refine ⟨?_, ?_, ?_⟩ <;> decide

/-! ### Claim C2: no guard before the centroid division -/

/-- C2 (code bug, evaluation at the failing input): a constant half spectrum
[5, 5, 5, 5] has threshold (max - min) * 0.25 + min = 5, so thresholding
zeroes every bin and the region list is empty; the code then reaches the
weighted-centroid division with magnitude sum 0 (0.0 / 0.0, embedded as
none) instead of short-circuiting and leaving the display unchanged. -/
theorem c2_no_empty_guard_eval :
    thresholdStep [5, 5, 5, 5] = [0, 0, 0, 0] ∧
    findAreas (thresholdStep [5, 5, 5, 5]) = [] ∧
    npSum (isolate (thresholdStep [5, 5, 5, 5])) = 0 ∧
    tunerTick [5, 5, 5, 5] = none := by
  have h1 : thresholdStep [5, 5, 5, 5] = [0, 0, 0, 0] := by
    norm_num [thresholdStep, npMax, npMin, FREQ_CUTOFF, List.foldl]
  have h2 : findAreas [(0 : ℚ), 0, 0, 0] = [] := by decide
  have h3 : isolate [(0 : ℚ), 0, 0, 0] = [0, 0, 0, 0] := by decide
  have h4 : npSum [(0 : ℚ), 0, 0, 0] = 0 := by norm_num [npSum]
  refine ⟨h1, by rw [h1]; exact h2, by rw [h1, h3]; exact h4, ?_⟩
  unfold tunerTick
  rw [h1, h3]
  simp [centroid, h4]


/-! ### Claims C3 and C4: the Knob.value commit rules -/

theorem knob_sub_noop (ε v x : ℚ) (hid : Bool) (com : List ℚ) (hx : |x - v| < ε) :
    knobSetValue ε ⟨v, some v, hid, com⟩ x = ⟨v, some v, hid, com⟩ := by
  show (if v = v then _ else _) = _
  rw [if_pos rfl, if_neg (not_le.mpr hx)]

theorem knob_threshold_commit (ε v r : ℚ) (hid : Bool) (com : List ℚ)
    (hr : ε ≤ |r - v|) :
    knobSetValue ε ⟨v, some v, hid, com⟩ r = ⟨r, some r, hid, com ++ [r]⟩ := by
  show (if v = v then _ else _) = _
  rw [if_pos rfl, if_pos hr]

theorem knob_crossing (ε p v r : ℚ) (hid : Bool) (com : List ℚ) (hne : p ≠ v) :
    knobSetValue ε ⟨v, some p, hid, com⟩ r =
      if (p < v ∧ v ≤ r) ∨ (v < p ∧ r ≤ v) then ⟨r, some r, hid, com ++ [r]⟩
      else ⟨v, some r, hid, com⟩ := by
  show (if p = v then _ else _) = _
  rw [if_neg hne]
  by_cases h1 : p < v ∧ v ≤ r
  · have hnr : ¬(r < p) := not_lt.mpr (le_of_lt (lt_of_lt_of_le h1.1 h1.2))
    simp only [if_pos h1, if_pos (Or.inl h1)]
    rw [if_neg]
    intro hc
    exact hnr hc.1
  · simp only [if_neg h1]
    by_cases h2 : v < p ∧ r ≤ v
    · simp only [if_pos h2, if_pos (Or.inr h2)]
    · rw [if_neg h2, if_neg]
      intro hc
      rcases hc with hc | hc
      · exact h1 hc
      · exact h2 hc

/-- C3 (counterexample): a knob at committed value 1/2 that has just been
reset() receives the reading 9/10, which differs from the committed value by
2/5, far above the threshold 1/100; the claim says this first reading is
committed, but the setter only records it as the previous marker: nothing is
committed and the committed value stays 1/2. -/
theorem c3_counterexample :
    (1/100 : ℚ) ≤ |(9/10 : ℚ) - kc3.value| ∧
    (knobSetValue (1/100) kc3 (9/10)).commits = [] ∧
    (knobSetValue (1/100) kc3 (9/10)).value = 1/2 := by
  refine ⟨?_, rfl, rfl⟩
  have hv : kc3.value = 1/2 := rfl
  rw [hv, le_abs]
  left
  norm_num

/-- C3 (amended): after reset() the first reading assigned never commits and
is only recorded as the previous marker (last conjunct); once the previous
marker equals the committed value, sub-threshold readings leave the knob
state completely unchanged, and the first reading differing from the
committed value by at least the threshold 0.01 is the first committed
update, invoking the callback with it and making it the committed value. -/
theorem c3_seeking_amended (ε : ℚ) (s : KnobState) (v r : ℚ) (rs : List ℚ)
    (hp : s.previous = some v) (hv : s.value = v)
    (hrs : ∀ x ∈ rs, |x - v| < ε) (hr : ε ≤ |r - v|) :
    feedReadings ε s rs = s ∧
    (feedReadings ε s (rs ++ [r])).commits = s.commits ++ [r] ∧
    (feedReadings ε s (rs ++ [r])).value = r ∧
    (∀ (t : KnobState) (x : ℚ), t.previous = none →
      knobSetValue ε t x = { t with previous := some x }) := by
  obtain ⟨val, prev, hid, com⟩ := s
  simp only at hp hv
  subst hp
  replace hv := hv.symm
  subst hv
  have hfeed : ∀ (l : List ℚ), (∀ x ∈ l, |x - v| < ε) →
      feedReadings ε ⟨v, some v, hid, com⟩ l = ⟨v, some v, hid, com⟩ := by
    intro l
    induction l with
    | nil => intro _; rfl
    | cons a as ih =>
      intro hl
      have ha : |a - v| < ε := hl a (List.mem_cons_self a as)
      show feedReadings ε (knobSetValue ε ⟨v, some v, hid, com⟩ a) as = _
      rw [knob_sub_noop ε v a hid com ha]
      exact ih fun x hx => hl x (List.mem_cons_of_mem a hx)
  have happ : feedReadings ε ⟨v, some v, hid, com⟩ (rs ++ [r]) =
      knobSetValue ε (feedReadings ε ⟨v, some v, hid, com⟩ rs) r := by
    unfold feedReadings
    rw [List.foldl_append]
    rfl
  refine ⟨hfeed rs hrs, ?_, ?_, ?_⟩
  · rw [happ, hfeed rs hrs, knob_threshold_commit ε v r hid com hr]
  · rw [happ, hfeed rs hrs, knob_threshold_commit ε v r hid com hr]
  · intro t x ht
    obtain ⟨tv, tp, th, tc⟩ := t
    simp only at ht
    subst ht
    rfl

/-- C3 (witness): from the actively updating state at committed value 1/2,
the sub-threshold readings 101/200 and 497/1000 change nothing, and the
reading 9/10 is then the first committed update. -/
theorem c3_seeking_amended_witness :
    feedReadings (1/100) kw3 [101/200, 497/1000] = kw3 ∧
    (feedReadings (1/100) kw3 [101/200, 497/1000, 9/10]).commits = [9/10] := by
  have h := c3_seeking_amended (1/100) kw3 (1/2) (9/10) [101/200, 497/1000]
    rfl rfl ?_ ?_
  · refine ⟨h.1, ?_⟩
    have h2 := h.2.1
    simpa [kw3] using h2
  · intro x hx
    rcases List.mem_cons.mp hx with h1 | hx2
    · subst h1; rw [abs_lt]; constructor <;> norm_num
    · rcases List.mem_cons.mp hx2 with h1 | h1
      · subst h1; rw [abs_lt]; constructor <;> norm_num
      · simp at h1
  · rw [le_abs]; left; norm_num

/-- C4 (counterexample): for the not-seeking knob kc4 (committed value 1/2,
previous raw reading 3/10) and the new reading 1/5, the formula of the claim
says commit (previous 3/10 exceeds reading 1/5 and the reading is at most the
committed value), but the code commits nothing: its conditions compare the
previous reading with the committed value, not with the new reading. -/
theorem c4_counterexample :
    claimC4Cond (3/10) (1/2) (1/5) ∧
    (knobSetValue (1/100) kc4 (1/5)).commits = [] ∧
    (knobSetValue (1/100) kc4 (1/5)).value = 1/2 := by
  have h := knob_crossing (1/100) (3/10) (1/2) (1/5) false [] (by norm_num)
  have hcond : ¬(((3:ℚ)/10 < 1/2 ∧ (1:ℚ)/2 ≤ 1/5) ∨
      ((1:ℚ)/2 < 3/10 ∧ (1:ℚ)/5 ≤ 1/2)) := by
    rintro (⟨ha, hb⟩ | ⟨ha, hb⟩)
    · norm_num at hb
    · norm_num at ha
  rw [if_neg hcond] at h
  have hk : kc4 = ⟨1/2, some (3/10), false, []⟩ := rfl
  rw [hk, h]
  exact ⟨Or.inr ⟨by norm_num, by norm_num⟩, rfl, rfl⟩

/-- C4 (amended): for a knob not in seeking state (previous raw reading
recorded and different from the committed value), an assigned reading
commits, and becomes the committed value, if and only if ((previous <
current) and (reading ≥ current)) or ((previous > current) and (reading ≤
current)), where current is the committed value; the reading always becomes
the new previous marker. -/
theorem c4_crossing_amended (ε : ℚ) (s : KnobState) (p r : ℚ)
    (hp : s.previous = some p) (hne : p ≠ s.value) :
    (knobSetValue ε s r).commits =
      s.commits ++ (if (p < s.value ∧ s.value ≤ r) ∨ (s.value < p ∧ r ≤ s.value)
        then [r] else []) ∧
    (knobSetValue ε s r).value =
      (if (p < s.value ∧ s.value ≤ r) ∨ (s.value < p ∧ r ≤ s.value)
        then r else s.value) ∧
    (knobSetValue ε s r).previous = some r := by
  obtain ⟨val, prev, hid, com⟩ := s
  simp only at hp hne
  subst hp
  rw [knob_crossing ε p val r hid com hne]
  by_cases h : (p < val ∧ val ≤ r) ∨ (val < p ∧ r ≤ val)
  · simp only [if_pos h]
    simp
  · simp only [if_neg h]
    simp

/-- C4 (witness): the amended crossing rule at the knob kw4 (committed value
1/2, previous reading 2/5) with reading 3/5: the pot swept rightward past
the committed value, so the reading commits. -/
theorem c4_crossing_amended_witness :
    (knobSetValue (1/100) kw4 (3/5)).commits = [3/5] ∧
    (knobSetValue (1/100) kw4 (3/5)).value = 3/5 := by
  have h := c4_crossing_amended (1/100) kw4 (2/5) (3/5) rfl (by norm_num [kw4])
  have hcond : ((2:ℚ)/5 < kw4.value ∧ kw4.value ≤ 3/5) ∨
      (kw4.value < 2/5 ∧ (3:ℚ)/5 ≤ kw4.value) :=
    Or.inl ⟨by norm_num [kw4], by norm_num [kw4]⟩
  constructor
  · have h1 := h.1
    rw [if_pos hcond] at h1
    simpa [kw4] using h1
  · have h2 := h.2.1
    rw [if_pos hcond] at h2
    simpa using h2

/-! ### Claim C5: the cents formula uses the natural logarithm -/

/-- C5 (code bug, evaluation at the failing input): apps/tuner.py computes
cents = 1200 * math.log(frequency / target_frequency) with the one-argument
math.log, the natural logarithm, while the claim (and the definition of the
cents unit, 1200 per octave, used with base 2 at the note-number line of the
same file) requires 1200 * log2.  With detected frequency 900 Hz the nearest
note is 81 and its target frequency is 880 Hz; there the code reports a
strictly smaller deviation (about 27.0 cents) than the claimed formula
(about 38.9 cents). -/
theorem c5_natural_log_eval :
    targetFrequency 81 = 880 ∧
    codeCents 900 (targetFrequency 81) < specCents 900 (targetFrequency 81) := by
  have ht : targetFrequency 81 = 880 := by
    unfold targetFrequency
    rw [show (((81 : ℤ) : ℝ) - 69) / 12 = 1 by norm_num, Real.rpow_one]
    norm_num
  refine ⟨ht, ?_⟩
  rw [ht]
  unfold codeCents specCents Real.logb
  have hq : (900 : ℝ) / 880 = 45 / 44 := by norm_num
  rw [hq]
  have hL : 0 < Real.log (45 / 44) := Real.log_pos (by norm_num)
  have h2 : 0 < Real.log 2 := Real.log_pos one_lt_two
  have h3 : Real.log 2 < 1 := lt_trans Real.log_two_lt_d9 (by norm_num)
  have key : Real.log (45 / 44) < Real.log (45 / 44) / Real.log 2 := by
    rw [lt_div_iff₀ h2]
    nlinarith
  linarith

/-! ### Claim C6: mix gains under bypass and at full wet -/

/-- C6: whenever the mix gains are recomputed with bypass active, the dry
gain parameter (mic_output_volume) equals the fixed bypass constant and the
DAC is muted, forcing the effective wet gain to the library minimum,
regardless of the stored mix value; and with bypass inactive and mix at
least 1, the dry bleed path switch (mic_output) is turned off outright. -/
theorem c6_mix_gains (outMin dacMin mix : ℚ) :
    (updateMix outMin dacMin true mix).micOutputVolume = BYPASS_DRY_GAIN ∧
    (updateMix outMin dacMin true mix).dacMute = true ∧
    effectiveWetGain dacMin (updateMix outMin dacMin true mix) = dacMin ∧
    (1 ≤ mix → (updateMix outMin dacMin false mix).micOutput = false) := by
  refine ⟨rfl, rfl, rfl, fun h => ?_⟩
  show (if (false : Bool) = false ∧ 1 ≤ mix then false else true) = false
  rw [if_pos ⟨rfl, h⟩]

/-- C6 (witness): the bypass and full-wet register values at the codec
constants -21 and -96 and stored mix 1. -/
theorem c6_mix_gains_witness :
    (updateMix (-21) (-96) true 1).micOutputVolume = BYPASS_DRY_GAIN ∧
    effectiveWetGain (-96) (updateMix (-21) (-96) true 1) = -96 ∧
    (updateMix (-21) (-96) false 1).micOutput = false :=
  ⟨(c6_mix_gains (-21) (-96) 1).1, (c6_mix_gains (-21) (-96) 1).2.2.1,
    (c6_mix_gains (-21) (-96) 1).2.2.2 (le_refl 1)⟩

/-! ### Device-level lemmas for claims C8, C9 and C10 -/

theorem knobLoop_stompCount (ε : ℚ) (d : Device) (r : ℕ → ℚ) :
    (knobLoop ε d r).stompCount = d.stompCount := rfl

theorem nextPage_stompCount (d : Device) :
    (nextPage d).stompCount = d.stompCount := rfl

theorem updateDevice_stompCount (ε : ℚ) (d : Device) (b : Bool) (dur : ℚ)
    (progs : ℕ) (r : ℕ → ℚ) :
    (updateDevice ε d b true dur progs r).stompCount =
      if dur < SWITCH_SHORT_DURATION then d.stompCount + 1 else 0 := by
  unfold updateDevice
  by_cases hc : d.ledControl <;> by_cases hd : dur < SWITCH_SHORT_DURATION <;>
    simp [hc, hd, knobLoop_stompCount, nextPage_stompCount] <;>
    split <;> rfl

theorem knobLoop_mix (ε : ℚ) (d : Device) (r : ℕ → ℚ) :
    (knobLoop ε d r).mix = d.mix := rfl

theorem nextPage_mix (d : Device) : (nextPage d).mix = d.mix := rfl

theorem updateDevice_mix (ε : ℚ) (d : Device) (b e : Bool) (dur : ℚ)
    (progs : ℕ) (r : ℕ → ℚ) :
    (updateDevice ε d b e dur progs r).mix = d.mix := by
  unfold updateDevice
  by_cases hc : d.ledControl <;> cases e <;>
    by_cases hd : dur < SWITCH_SHORT_DURATION <;>
    simp [hc, hd, knobLoop_mix, nextPage_mix] <;>
    split <;> rfl

theorem knobLoop_ledControl (ε : ℚ) (d : Device) (r : ℕ → ℚ) :
    (knobLoop ε d r).ledControl = d.ledControl := rfl

theorem nextPage_ledControl (d : Device) :
    (nextPage d).ledControl = d.ledControl := rfl

theorem updateDevice_ledControl (ε : ℚ) (d : Device) (b e : Bool) (dur : ℚ)
    (progs : ℕ) (r : ℕ → ℚ) :
    (updateDevice ε d b e dur progs r).ledControl = d.ledControl := by
  unfold updateDevice
  by_cases hc : d.ledControl <;> cases e <;>
    by_cases hd : dur < SWITCH_SHORT_DURATION <;>
    simp [hc, hd, knobLoop_ledControl, nextPage_ledControl] <;>
    split <;> rfl

theorem knobLoop_ledDuty (ε : ℚ) (d : Device) (r : ℕ → ℚ) :
    (knobLoop ε d r).ledDuty = d.ledDuty := rfl

theorem nextPage_ledDuty (d : Device) : (nextPage d).ledDuty = d.ledDuty := rfl

theorem updateDevice_ledDuty_no_control (ε : ℚ) (d : Device) (b e : Bool)
    (dur : ℚ) (progs : ℕ) (r : ℕ → ℚ) (h : d.ledControl = false) :
    (updateDevice ε d b e dur progs r).ledDuty = d.ledDuty := by
  unfold updateDevice
  cases e <;> by_cases hd : dur < SWITCH_SHORT_DURATION <;>
    simp [h, hd, knobLoop_ledDuty, nextPage_ledDuty]
  all_goals split <;> rfl

theorem applyOp_mix_mem (ε : ℚ) (d : Device) (op : Op)
    (h : 0 ≤ d.mix ∧ d.mix ≤ 1) :
    0 ≤ (applyOp ε d op).mix ∧ (applyOp ε d op).mix ≤ 1 := by
  cases op with
  | update b edge dur progs r =>
    show 0 ≤ (updateDevice ε d b edge dur progs r).mix ∧
      (updateDevice ε d b edge dur progs r).mix ≤ 1
    rw [updateDevice_mix]
    exact h
  | setMix v => exact constrain01_mem v
  | setLevel v => exact h
  | setLed v => exact h
  | nextPage => exact h
  | addKnob v => exact h

theorem applyOp_ledControl_false (ε : ℚ) (d : Device) (op : Op)
    (h : d.ledControl = false) :
    (applyOp ε d op).ledControl = false := by
  cases op with
  | update b edge dur progs r =>
    show (updateDevice ε d b edge dur progs r).ledControl = false
    rw [updateDevice_ledControl]
    exact h
  | setMix v => exact h
  | setLevel v => exact h
  | setLed v => rfl
  | nextPage => exact h
  | addKnob v => exact h

/-! ### Claim C8: tap counter on debounced switch edges -/

/-- C8: on every debounced switch edge, a preceding stable duration below
SWITCH_SHORT_DURATION (0.4 s) increments the tap counter and a duration of
at least 0.4 s resets it to 0; consequently, after an edge ending a long
stable interval, two consecutive short-classified edges leave the tap
counter equal to 2, from any starting state. -/
theorem c8_tap_counter :
    (∀ (ε : ℚ) (d : Device) (b : Bool) (dur : ℚ) (progs : ℕ) (r : ℕ → ℚ),
      dur < SWITCH_SHORT_DURATION →
      (updateDevice ε d b true dur progs r).stompCount = d.stompCount + 1) ∧
    (∀ (ε : ℚ) (d : Device) (b : Bool) (dur : ℚ) (progs : ℕ) (r : ℕ → ℚ),
      SWITCH_SHORT_DURATION ≤ dur →
      (updateDevice ε d b true dur progs r).stompCount = 0) ∧
    (∀ (ε : ℚ) (d : Device) (b : Bool) (progs : ℕ) (r : ℕ → ℚ) (g p1 p2 : ℚ),
      SWITCH_SHORT_DURATION ≤ g → p1 < SWITCH_SHORT_DURATION →
      p2 < SWITCH_SHORT_DURATION →
      (updateDevice ε (updateDevice ε (updateDevice ε d b true g progs r)
        b true p1 progs r) b true p2 progs r).stompCount = 2) := by
  refine ⟨?_, ?_, ?_⟩
  · intro ε d b dur progs r h
    rw [updateDevice_stompCount, if_pos h]
  · intro ε d b dur progs r h
    rw [updateDevice_stompCount, if_neg (not_lt.mpr h)]
  · intro ε d b progs r g p1 p2 hg h1 h2
    rw [updateDevice_stompCount, if_pos h2, updateDevice_stompCount, if_pos h1,
      updateDevice_stompCount, if_neg (not_lt.mpr hg)]

/-- C8 (witness): from the fresh device d0, an edge after a 1 s stable
interval, then two edges after 0 s and 1/10 s stable intervals, leave the
tap counter at 2. -/
theorem c8_tap_counter_witness :
    (updateDevice (1/100) (updateDevice (1/100) (updateDevice (1/100) d0
      false true 1 1 zeroReading) false true 0 1 zeroReading)
      false true (1/10) 1 zeroReading).stompCount = 2 :=
  c8_tap_counter.2.2 (1/100) d0 false 1 zeroReading 1 0 (1/10)
    (by norm_num [SWITCH_SHORT_DURATION])
    (by norm_num [SWITCH_SHORT_DURATION])
    (by norm_num [SWITCH_SHORT_DURATION])

/-! ### Claim C9: the stored mix is always the clamped value -/

/-- C9: assigning v to the mix property stores constrain(v) with the default
bounds 0 and 1 (out-of-range inputs are silently clamped, not stored or
rejected), and after any subsequent sequence of operations the stored mix
remains inside the interval from 0 to 1. -/
theorem c9_mix_clamped (ε : ℚ) (d : Device) (v : ℚ) (ops : List Op) :
    (setMix d v).mix = constrain v 0 1 ∧
    0 ≤ (applyOps ε ops (setMix d v)).mix ∧
    (applyOps ε ops (setMix d v)).mix ≤ 1 := by
  refine ⟨rfl, ?_⟩
  have h0 : 0 ≤ (setMix d v).mix ∧ (setMix d v).mix ≤ 1 := constrain01_mem v
  have hgen : ∀ (s : Device), 0 ≤ s.mix ∧ s.mix ≤ 1 →
      0 ≤ (applyOps ε ops s).mix ∧ (applyOps ε ops s).mix ≤ 1 := by
    induction ops with
    | nil => intro s hs; exact hs
    | cons op rest ih =>
      intro s hs
      exact ih (applyOp ε s op) (applyOp_mix_mem ε s op hs)
  exact hgen (setMix d v) h0

/-! ### Claim C10: assigning the led property disables automatic control -/

/-- C10: after any assignment to the led property, the automatic LED control
flag is false and stays false under every modeled ZeroStomp operation, and
every subsequent update() call leaves the stomp LED PWM duty cycle
unchanged, whatever the bypass state. -/
theorem c10_led_control (ε : ℚ) (d : Device) (v : ℚ) (ops : List Op)
    (b e : Bool) (dur : ℚ) (progs : ℕ) (r : ℕ → ℚ) :
    (applyOps ε ops (setLed d v)).ledControl = false ∧
    (updateDevice ε (applyOps ε ops (setLed d v)) b e dur progs r).ledDuty =
      (applyOps ε ops (setLed d v)).ledDuty := by
  have hgen : ∀ (s : Device), s.ledControl = false →
      (applyOps ε ops s).ledControl = false := by
    induction ops with
    | nil => intro s hs; exact hs
    | cons op rest ih =>
      intro s hs
      exact ih (applyOp ε s op) (applyOp_ledControl_false ε s op hs)
  have h1 : (applyOps ε ops (setLed d v)).ledControl = false := hgen (setLed d v) rfl
  exact ⟨h1, updateDevice_ledDuty_no_control ε _ b e dur progs r h1⟩
